import Mathlib

/-!
Verification of the task-cost service (`src/backend/main.py`).

The service computes a monetary cost for time-tracked tasks at a fixed
hourly rate, persists the results in a relational table, and exposes
bulk calculate-and-persist, list, and delete-by-id operations.

Shallow embedding choices:
* Timestamps are rationals (seconds on a linear time axis); Python's
  `end - start` followed by `.total_seconds()` is the plain difference.
* Python floats are modelled as rationals.
* The database table is a list of `TaskDB` rows in insertion order; the
  store assigns consecutive integer ids and stamps `created_at`.
* A request handler is a function from its inputs and the pre-state of
  the store to `Except HTTPException` of its response and post-state;
  an error leaves the store at its pre-state (rollback).
* The Python handlers wrap their body in `try/except Exception`, and
  FastAPI's `HTTPException` is a subclass of `Exception`: an
  `HTTPException` raised inside the `try` block is therefore caught by
  the blanket handler, which rolls back and re-raises a generic
  HTTP 500.  The embedding reproduces this control flow faithfully.
-/

namespace ServiceCosts

/-- A client-submitted task (`TaskInput` pydantic model, main.py lines 68-71).
`description` is required but carries no non-emptiness constraint. -/
structure TaskInput where
  description : String
  start_time : ℚ
  end_time : ℚ
  deriving Repr, DecidableEq

/-- A computed task returned to the client (`TaskOutput`, main.py lines 89-91):
the input fields plus `duration_hours` and `cost`. -/
structure TaskOutput where
  description : String
  start_time : ℚ
  end_time : ℚ
  duration_hours : ℚ
  cost : ℚ
  deriving Repr, DecidableEq

/-- A persisted row of the `calculated_tasks` table (`TaskDB`, main.py
lines 55-63).  Note the table stores no hourly rate column. -/
structure TaskDB where
  id : ℕ
  description : String
  start_time : ℚ
  end_time : ℚ
  duration_hours : ℚ
  cost : ℚ
  created_at : ℚ
  deriving Repr, DecidableEq

/-- An HTTP error response (`fastapi.HTTPException`): status code and detail. -/
structure HTTPException where
  status_code : ℕ
  detail : String
  deriving Repr, DecidableEq

/-- Response of the calculate endpoint (`CalculationResponse`, main.py 93-95). -/
structure CalculationResponse where
  calculated_tasks : List TaskOutput
  grand_total : ℚ
  deriving Repr, DecidableEq

/-- An item of the list endpoint's response (`TaskListItem`, main.py 97-105). -/
structure TaskListItem where
  id : ℕ
  description : String
  start_time : ℚ
  end_time : ℚ
  duration_hours : ℚ
  calculated_value : ℚ
  hourly_rate : ℚ
  created_at : ℚ
  deriving Repr, DecidableEq

/-- The per-task computation of main.py lines 150-160:
`duration_hours = (end_time - start_time).total_seconds() / 3600`,
`cost = duration_hours * rate`, packaged as a `TaskOutput`. -/
def outputOf (rate : ℚ) (task : TaskInput) : TaskOutput :=
  let duration_hours := (task.end_time - task.start_time) / 3600
  let cost := duration_hours * rate
  { description := task.description
    start_time := task.start_time
    end_time := task.end_time
    duration_hours := duration_hours
    cost := cost }

/-- The loop of main.py lines 144-161: validate each task in input order
(`end_time` must be strictly after `start_time`, otherwise an HTTP 400
naming the task's description is raised) and collect the computed outputs.
The 400 raised here is what line 146-148 constructs; whether it reaches
the client is decided by the surrounding `try/except` (see
`calculate_and_save_tasks`). -/
def processTasks (rate : ℚ) : List TaskInput → Except HTTPException (List TaskOutput)
  | [] => .ok []
  | task :: rest =>
    if task.end_time ≤ task.start_time then
      .error ⟨400, "A data de fim da tarefa " ++ task.description ++
        " deve ser posterior a data de inicio."⟩
    else
      match processTasks rate rest with
      | .error e => .error e
      | .ok outs => .ok (outputOf rate task :: outs)

/-- Rows added by `db.add` in the loop (main.py lines 163-170): one `TaskDB`
row per output, with store-assigned consecutive ids and `created_at`
stamped at insertion time. -/
def rowsOf (nextId : ℕ) (now : ℚ) : List TaskOutput → List TaskDB
  | [] => []
  | o :: rest =>
    { id := nextId, description := o.description, start_time := o.start_time,
      end_time := o.end_time, duration_hours := o.duration_hours,
      cost := o.cost, created_at := now } :: rowsOf (nextId + 1) now rest

/-- The `grand_total` accumulator of main.py lines 141 and 162:
starts at `0.0` and adds each task's cost in order. -/
def grandTotalOf (outs : List TaskOutput) : ℚ :=
  outs.foldl (fun acc o => acc + o.cost) 0

/-- Handler of `POST /api/calculate/` (main.py lines 137-182).
The empty-batch check is before the `try` block, so its HTTP 400
reaches the client.  Everything else runs inside
`try ... except Exception`, so any exception raised there — including
the per-task validation `HTTPException(400)` — is caught, the
transaction is rolled back (store unchanged) and a generic HTTP 500 is
re-raised.  On success all rows are committed at once. -/
def calculate_and_save_tasks (rate : ℚ) (nextId : ℕ) (now : ℚ)
    (store : List TaskDB) (tasks : List TaskInput) :
    Except HTTPException (CalculationResponse × List TaskDB) :=
  if tasks.isEmpty then
    .error ⟨400, "A lista de tarefas nao pode estar vazia."⟩
  else
    match processTasks rate tasks with
    | .error _ =>
      .error ⟨500, "Ocorreu um erro interno ao processar as tarefas."⟩
    | .ok outs =>
      .ok ({ calculated_tasks := outs, grand_total := grandTotalOf outs },
           store ++ rowsOf nextId now outs)

/-- Contents of the store after a calculate request: unchanged when the
request errors (rollback), the returned post-state otherwise. -/
def storeAfterCalculate (rate : ℚ) (nextId : ℕ) (now : ℚ)
    (store : List TaskDB) (tasks : List TaskInput) : List TaskDB :=
  match calculate_and_save_tasks rate nextId now store tasks with
  | .error _ => store
  | .ok (_, store2) => store2

/-- The ordering used by `ORDER BY start_time DESC` (main.py line 193):
row `a` comes before row `b` when `a.start_time ≥ b.start_time`. -/
def startDesc (a b : TaskDB) : Prop := b.start_time ≤ a.start_time

instance : DecidableRel startDesc := fun a b =>
  inferInstanceAs (Decidable (b.start_time ≤ a.start_time))

instance : IsTotal TaskDB startDesc :=
  ⟨fun a b => le_total b.start_time a.start_time⟩

instance : IsTrans TaskDB startDesc :=
  ⟨fun _ _ _ h1 h2 => le_trans h2 h1⟩

/-- The dictionary built for each row by main.py lines 196-205: the row's
stored fields, with `calculated_value` taken from the stored `cost` and
`hourly_rate` taken from the process-wide current rate constant. -/
def recordToItem (rate : ℚ) (t : TaskDB) : TaskListItem :=
  { id := t.id, description := t.description, start_time := t.start_time,
    end_time := t.end_time, duration_hours := t.duration_hours,
    calculated_value := t.cost, hourly_rate := rate,
    created_at := t.created_at }

/-- Handler of `GET /tasks` (main.py lines 190-208): all rows ordered by
`start_time` descending (a stable sort refines the store-natural tie
order), each rendered by `recordToItem` with the current rate. -/
def list_tasks (rate : ℚ) (store : List TaskDB) : List TaskListItem :=
  (store.insertionSort startDesc).map (recordToItem rate)

/-- Handler of `DELETE /tasks/{task_id}` (main.py lines 215-230): look up
the first row with the given id; when none exists the 404 raised at line
220 is caught by the blanket `except Exception` at line 225, which rolls
back and re-raises a generic HTTP 500 — so the client sees 500, not 404.
When the row exists it is deleted and a success message returned. -/
def delete_task (store : List TaskDB) (task_id : ℕ) :
    Except HTTPException (String × List TaskDB) :=
  match store.find? (fun t => t.id == task_id) with
  | none => .error ⟨500, "Erro ao remover tarefa."⟩
  | some _ => .ok ("Tarefa removida com sucesso.",
      store.eraseP (fun t => t.id == task_id))

/-- Contents of the store after a delete request: unchanged on error. -/
def storeAfterDelete (store : List TaskDB) (task_id : ℕ) : List TaskDB :=
  match delete_task store task_id with
  | .error _ => store
  | .ok (_, store2) => store2

/-- Inverse projection of `recordToItem`, recovering the stored row from a
response item (drops the rate, which is not a row field). -/
def itemToRecord (i : TaskListItem) : TaskDB :=
  { id := i.id, description := i.description, start_time := i.start_time,
    end_time := i.end_time, duration_hours := i.duration_hours,
    cost := i.calculated_value, created_at := i.created_at }

/-! ## Helper lemmas -/

/-- When every task is valid, the loop succeeds and returns one output per
input task, in input order. -/
theorem processTasks_ok_of_valid (rate : ℚ) (tasks : List TaskInput)
    (h : ∀ t ∈ tasks, t.start_time < t.end_time) :
    processTasks rate tasks = .ok (tasks.map (outputOf rate)) := by
  induction tasks with
  | nil => rfl
  | cons task rest ih =>
    have h1 : ¬ task.end_time ≤ task.start_time :=
      not_le.2 (h task (List.mem_cons_self task rest))
    have h2 := ih (fun t ht => h t (List.mem_cons_of_mem task ht))
    simp [processTasks, if_neg h1, h2]

/-- When some task is invalid, the loop raises. -/
theorem processTasks_error_of_invalid (rate : ℚ) (tasks : List TaskInput)
    (t : TaskInput) (ht : t ∈ tasks) (hbad : t.end_time ≤ t.start_time) :
    ∃ e, processTasks rate tasks = .error e := by
  induction tasks with
  | nil => cases ht
  | cons task rest ih =>
    by_cases hc : task.end_time ≤ task.start_time
    · exact ⟨⟨400, "A data de fim da tarefa " ++ task.description ++
        " deve ser posterior a data de inicio."⟩, by simp [processTasks, if_pos hc]⟩
    · have htr : t ∈ rest := by
        rcases List.mem_cons.1 ht with h | h
        · exact absurd (h ▸ hbad) hc
        · exact h
      obtain ⟨e, he⟩ := ih htr
      exact ⟨e, by simp [processTasks, if_neg hc, he]⟩

theorem foldl_add_cost (outs : List TaskOutput) :
    ∀ acc : ℚ, outs.foldl (fun a o => a + o.cost) acc =
      acc + (outs.map TaskOutput.cost).sum := by
  induction outs with
  | nil => intro acc; simp
  | cons o rest ih => intro acc; simp [ih, add_assoc]

/-- The running accumulator equals the sum of the costs. -/
theorem grandTotalOf_eq_sum (outs : List TaskOutput) :
    grandTotalOf outs = (outs.map TaskOutput.cost).sum := by
  simp [grandTotalOf, foldl_add_cost]

/-- Success case of the calculate endpoint, in closed form. -/
theorem calculate_ok_of_valid (rate : ℚ) (nextId : ℕ) (now : ℚ)
    (store : List TaskDB) (tasks : List TaskInput) (hne : tasks ≠ [])
    (hvalid : ∀ t ∈ tasks, t.start_time < t.end_time) :
    calculate_and_save_tasks rate nextId now store tasks =
      .ok ({ calculated_tasks := tasks.map (outputOf rate),
             grand_total := ((tasks.map (outputOf rate)).map TaskOutput.cost).sum },
           store ++ rowsOf nextId now (tasks.map (outputOf rate))) := by
  have hp := processTasks_ok_of_valid rate tasks hvalid
  have hemp : tasks.isEmpty = false := by
    cases tasks with
    | nil => exact absurd rfl hne
    | cons a l => rfl
  simp [calculate_and_save_tasks, hemp, hp, grandTotalOf_eq_sum]

/-- Any invalid task makes the endpoint fail with the generic HTTP 500
(the per-task 400 raised inside the `try` block is caught by the blanket
`except Exception` and replaced). -/
theorem calculate_error_of_invalid (rate : ℚ) (nextId : ℕ) (now : ℚ)
    (store : List TaskDB) (tasks : List TaskInput)
    (t : TaskInput) (ht : t ∈ tasks) (hbad : t.end_time ≤ t.start_time) :
    calculate_and_save_tasks rate nextId now store tasks =
      .error ⟨500, "Ocorreu um erro interno ao processar as tarefas."⟩ := by
  obtain ⟨e, he⟩ := processTasks_error_of_invalid rate tasks t ht hbad
  have hemp : tasks.isEmpty = false := by
    cases tasks with
    | nil => cases ht
    | cons a l => rfl
  simp [calculate_and_save_tasks, hemp, he]

/-! ## Claim theorems -/

/-- C1: with `end_time` strictly after `start_time`, the calculation yields
`duration_hours = (end_time - start_time) / 3600` seconds-to-hours and
`cost = duration_hours * rate`; with rate 50 and the 09:00→11:30 scenario
(epoch seconds 1704877200 and 1704886200) it yields 2.5 hours and cost 125. -/
theorem C1_calculation_formula :
    (∀ (rate : ℚ) (task : TaskInput), task.start_time < task.end_time →
      (outputOf rate task).duration_hours = (task.end_time - task.start_time) / 3600 ∧
      (outputOf rate task).cost = (task.end_time - task.start_time) / 3600 * rate) ∧
    (outputOf 50 ⟨"Dev", 1704877200, 1704886200⟩).duration_hours = 5 / 2 ∧
    (outputOf 50 ⟨"Dev", 1704877200, 1704886200⟩).cost = 125 := by
  refine ⟨fun rate task _ => ⟨rfl, rfl⟩, ?_, ?_⟩ <;> norm_num [outputOf]

/-- Witness for C1 at a concrete valid input. -/
theorem C1_calculation_formula_witness :
    (0 : ℚ) < 3600 ∧
    ((outputOf 50 ⟨"w", 0, 3600⟩).duration_hours = ((3600 : ℚ) - 0) / 3600 ∧
     (outputOf 50 ⟨"w", 0, 3600⟩).cost = ((3600 : ℚ) - 0) / 3600 * 50) :=
  ⟨by norm_num, C1_calculation_formula.1 50 ⟨"w", 0, 3600⟩ (by norm_num)⟩

/-- C3 (code bug): a batch with a task whose `end_time` is not after its
`start_time` makes the endpoint return the generic HTTP 500, while the loop
body had constructed the intended HTTP 400 naming the task's description —
the blanket `except Exception` swallows it. -/
theorem C3_validation_400_swallowed_into_500 :
    calculate_and_save_tasks 50 1 0 [] [⟨"Tarefa A", 3600, 0⟩] =
      .error ⟨500, "Ocorreu um erro interno ao processar as tarefas."⟩ ∧
    processTasks 50 [⟨"Tarefa A", 3600, 0⟩] =
      .error ⟨400, "A data de fim da tarefa Tarefa A deve ser posterior a data de inicio."⟩ :=
  ⟨rfl, rfl⟩

/-- C4 (code bug): deleting a missing id returns the generic HTTP 500, not
the intended 404 (swallowed by the blanket `except Exception`); the store is
left unchanged, and deleting the same id twice yields success then that 500. -/
theorem C4_delete_missing_gives_500_not_404 :
    delete_task [] 1 = .error ⟨500, "Erro ao remover tarefa."⟩ ∧
    storeAfterDelete [] 1 = [] ∧
    delete_task [⟨1, "a", 0, 3600, 1, 50, 0⟩] 1 =
      .ok ("Tarefa removida com sucesso.", []) ∧
    delete_task (storeAfterDelete [⟨1, "a", 0, 3600, 1, 50, 0⟩] 1) 1 =
      .error ⟨500, "Erro ao remover tarefa."⟩ :=
  ⟨rfl, rfl, rfl, rfl⟩

/-- C8: the empty batch is rejected with HTTP 400 (this check precedes the
`try` block, so the 400 survives) and the store is unchanged. -/
theorem C8_empty_batch_rejected (rate : ℚ) (nextId : ℕ) (now : ℚ)
    (store : List TaskDB) :
    calculate_and_save_tasks rate nextId now store [] =
      .error ⟨400, "A lista de tarefas nao pode estar vazia."⟩ ∧
    storeAfterCalculate rate nextId now store [] = store :=
  ⟨rfl, rfl⟩

/-- C2: a batch containing an invalid task (end not strictly after start)
persists nothing — the store after the request equals the store before,
however many valid tasks precede or follow the invalid one. -/
theorem C2_invalid_batch_persists_nothing (rate : ℚ) (nextId : ℕ) (now : ℚ)
    (store : List TaskDB) (tasks : List TaskInput) (t : TaskInput)
    (ht : t ∈ tasks) (hbad : t.end_time ≤ t.start_time) :
    storeAfterCalculate rate nextId now store tasks = store := by
  unfold storeAfterCalculate
  rw [calculate_error_of_invalid rate nextId now store tasks t ht hbad]

/-- Witness for C2: three valid tasks followed by one invalid task leave a
non-empty store exactly as it was. -/
theorem C2_invalid_batch_persists_nothing_witness :
    (⟨"d", 7200, 7200⟩ : TaskInput) ∈
      ([⟨"a", 0, 3600⟩, ⟨"b", 3600, 7200⟩, ⟨"c", 0, 7200⟩, ⟨"d", 7200, 7200⟩] :
        List TaskInput) ∧
    (7200 : ℚ) ≤ 7200 ∧
    storeAfterCalculate 50 2 10 [⟨1, "old", 0, 3600, 1, 50, 0⟩]
      [⟨"a", 0, 3600⟩, ⟨"b", 3600, 7200⟩, ⟨"c", 0, 7200⟩, ⟨"d", 7200, 7200⟩] =
      [⟨1, "old", 0, 3600, 1, 50, 0⟩] :=
  ⟨List.mem_cons_of_mem _ (List.mem_cons_of_mem _ (List.mem_cons_of_mem _
      (List.mem_cons_self _ _))),
   le_refl _,
   C2_invalid_batch_persists_nothing 50 2 10 _ _ _
     (List.mem_cons_of_mem _ (List.mem_cons_of_mem _ (List.mem_cons_of_mem _
       (List.mem_cons_self _ _))))
     (le_refl _)⟩

/-- C5: a non-empty, all-valid batch succeeds, returning one output per task
in input order (the input fields plus `duration_hours` and `cost`) and a
grand total equal to the sum of the costs; the rows are appended to the
store. -/
theorem C5_valid_batch_outputs_and_total (rate : ℚ) (nextId : ℕ) (now : ℚ)
    (store : List TaskDB) (tasks : List TaskInput) (hne : tasks ≠ [])
    (hvalid : ∀ t ∈ tasks, t.start_time < t.end_time) :
    calculate_and_save_tasks rate nextId now store tasks =
      .ok ({ calculated_tasks := tasks.map (outputOf rate),
             grand_total := ((tasks.map (outputOf rate)).map TaskOutput.cost).sum },
           store ++ rowsOf nextId now (tasks.map (outputOf rate))) :=
  calculate_ok_of_valid rate nextId now store tasks hne hvalid

/-- Witness for C5 on a concrete two-task batch. -/
theorem C5_valid_batch_outputs_and_total_witness :
    ([⟨"a", 0, 3600⟩, ⟨"b", 0, 7200⟩] : List TaskInput) ≠ [] ∧
    (∀ t ∈ ([⟨"a", 0, 3600⟩, ⟨"b", 0, 7200⟩] : List TaskInput),
      t.start_time < t.end_time) ∧
    calculate_and_save_tasks 50 1 0 [] [⟨"a", 0, 3600⟩, ⟨"b", 0, 7200⟩] =
      .ok ({ calculated_tasks :=
               ([⟨"a", 0, 3600⟩, ⟨"b", 0, 7200⟩] : List TaskInput).map (outputOf 50),
             grand_total :=
               ((([⟨"a", 0, 3600⟩, ⟨"b", 0, 7200⟩] : List TaskInput).map
                 (outputOf 50)).map TaskOutput.cost).sum },
           [] ++ rowsOf 1 0 (([⟨"a", 0, 3600⟩, ⟨"b", 0, 7200⟩] :
             List TaskInput).map (outputOf 50))) := by
  have hv : ∀ t ∈ ([⟨"a", 0, 3600⟩, ⟨"b", 0, 7200⟩] : List TaskInput),
      t.start_time < t.end_time := by
    intro t ht
    simp only [List.mem_cons, List.mem_singleton, List.not_mem_nil, or_false] at ht
    rcases ht with h | h <;> subst h <;> norm_num
  exact ⟨by simp, hv,
    C5_valid_batch_outputs_and_total 50 1 0 [] _ (by simp) hv⟩

/-- C6 counterexample: a record created while the rate was 40 (its cost is
1 hour × 40 = 40) is listed with `hourly_rate` 50 when the current rate is
50 — the returned rate is not the rate-at-creation. -/
theorem C6_counterexample :
    storeAfterCalculate 40 1 0 [] [⟨"a", 0, 3600⟩] =
      [⟨1, "a", 0, 3600, 1, 40, 0⟩] ∧
    (list_tasks 50 (storeAfterCalculate 40 1 0 [] [⟨"a", 0, 3600⟩])).map
      TaskListItem.hourly_rate = [50] ∧
    (50 : ℚ) ≠ 40 := by
  refine ⟨?_, ?_, by norm_num⟩ <;>
    norm_num [storeAfterCalculate, calculate_and_save_tasks, processTasks,
      outputOf, rowsOf, grandTotalOf, list_tasks, recordToItem]

/-- C6 amended: every item returned by the list operation carries the
process's current configured rate in `hourly_rate` (no per-record rate is
stored), which coincides with the rate-at-creation only when the rate has
not changed since the record was created. -/
theorem C6_hourly_rate_is_current_rate (rate : ℚ) (store : List TaskDB)
    (item : TaskListItem) (h : item ∈ list_tasks rate store) :
    item.hourly_rate = rate := by
  unfold list_tasks at h
  obtain ⟨t, -, rfl⟩ := List.mem_map.1 h
  rfl

/-- Witness for the amended C6. -/
theorem C6_hourly_rate_is_current_rate_witness :
    recordToItem 50 ⟨1, "a", 0, 3600, 1, 40, 0⟩ ∈
      list_tasks 50 [⟨1, "a", 0, 3600, 1, 40, 0⟩] ∧
    (recordToItem 50 ⟨1, "a", 0, 3600, 1, 40, 0⟩).hourly_rate = 50 := by
  have hmem : recordToItem 50 ⟨1, "a", 0, 3600, 1, 40, 0⟩ ∈
      list_tasks 50 [⟨1, "a", 0, 3600, 1, 40, 0⟩] := by
    rw [show list_tasks 50 [⟨1, "a", 0, 3600, 1, 40, 0⟩] =
      [recordToItem 50 ⟨1, "a", 0, 3600, 1, 40, 0⟩] from rfl]
    exact List.mem_singleton.2 rfl
  exact ⟨hmem, C6_hourly_rate_is_current_rate 50 _ _ hmem⟩

/-- C7: the list operation returns all persisted rows (a permutation of the
store) sorted by `start_time` descending; with start times 1 < 2 < 3 it
returns them as [3, 2, 1]; on the empty store it returns the empty list. -/
theorem C7_list_all_ordered_desc :
    (∀ (rate : ℚ) (store : List TaskDB),
      ((list_tasks rate store).map itemToRecord).Perm store ∧
      ((list_tasks rate store).map TaskListItem.start_time).Sorted
        (fun a b => b ≤ a)) ∧
    (list_tasks 50 [⟨1, "t1", 1, 2, 1, 50, 0⟩, ⟨2, "t2", 2, 3, 1, 50, 0⟩,
        ⟨3, "t3", 3, 4, 1, 50, 0⟩]).map TaskListItem.start_time = [3, 2, 1] ∧
    (∀ rate : ℚ, list_tasks rate [] = []) := by
  refine ⟨fun rate store => ⟨?_, ?_⟩, ?_, fun rate => rfl⟩
  · have h1 : (itemToRecord ∘ recordToItem rate) = id := funext fun t => rfl
    unfold list_tasks
    rw [List.map_map, h1, List.map_id]
    exact List.perm_insertionSort startDesc store
  · have h := List.sorted_insertionSort startDesc store
    unfold list_tasks
    rw [List.map_map]
    exact List.Pairwise.map _ (fun a b hab => hab) h
  · norm_num [list_tasks, List.insertionSort, List.orderedInsert, startDesc,
      recordToItem]

/-- C9 counterexample: a task with an empty description and valid times is
accepted by the calculate endpoint and persisted with its empty
description. -/
theorem C9_counterexample :
    calculate_and_save_tasks 50 1 0 [] [⟨"", 0, 3600⟩] =
      .ok ({ calculated_tasks := [⟨"", 0, 3600, 1, 50⟩], grand_total := 50 },
           [⟨1, "", 0, 3600, 1, 50, 0⟩]) ∧
    (storeAfterCalculate 50 1 0 [] [⟨"", 0, 3600⟩]).map TaskDB.description =
      [""] := by
  constructor <;>
    norm_num [storeAfterCalculate, calculate_and_save_tasks, processTasks,
      outputOf, rowsOf, grandTotalOf]

theorem rowsOf_map_description (now : ℚ) (outs : List TaskOutput) :
    ∀ nextId : ℕ,
      (rowsOf nextId now outs).map TaskDB.description =
        outs.map TaskOutput.description := by
  induction outs with
  | nil => intro n; rfl
  | cons o rest ih => intro n; simp [rowsOf, ih]

/-- C9 amended: the endpoint does not validate descriptions for
non-emptiness; every accepted batch persists each task's description
verbatim (empty strings included), appended after the existing rows. -/
theorem C9_descriptions_persisted_verbatim (rate : ℚ) (nextId : ℕ) (now : ℚ)
    (store : List TaskDB) (tasks : List TaskInput) (hne : tasks ≠ [])
    (hvalid : ∀ t ∈ tasks, t.start_time < t.end_time) :
    (storeAfterCalculate rate nextId now store tasks).map TaskDB.description =
      store.map TaskDB.description ++ tasks.map TaskInput.description := by
  unfold storeAfterCalculate
  rw [calculate_ok_of_valid rate nextId now store tasks hne hvalid]
  rw [List.map_append, rowsOf_map_description, List.map_map]
  have h : (TaskOutput.description ∘ outputOf rate) = TaskInput.description :=
    funext fun t => rfl
  rw [h]

/-- Witness for the amended C9, including an empty description. -/
theorem C9_descriptions_persisted_verbatim_witness :
    ([⟨"", 0, 3600⟩] : List TaskInput) ≠ [] ∧
    (∀ t ∈ ([⟨"", 0, 3600⟩] : List TaskInput), t.start_time < t.end_time) ∧
    (storeAfterCalculate 50 1 0 [] [⟨"", 0, 3600⟩]).map TaskDB.description =
      ([] : List TaskDB).map TaskDB.description ++
        ([⟨"", 0, 3600⟩] : List TaskInput).map TaskInput.description := by
  have hv : ∀ t ∈ ([⟨"", 0, 3600⟩] : List TaskInput),
      t.start_time < t.end_time := by
    intro t ht
    simp only [List.mem_singleton] at ht
    subst ht
    norm_num
  exact ⟨by simp, hv,
    C9_descriptions_persisted_verbatim 50 1 0 [] _ (by simp) hv⟩

/-- Under unique ids, erasing the first row matching an id equals filtering
out every row with that id. -/
theorem eraseP_id_eq_filter (tid : ℕ) (store : List TaskDB)
    (hnodup : (store.map TaskDB.id).Nodup) :
    store.eraseP (fun r => r.id == tid) =
      store.filter (fun r => r.id != tid) := by
  induction store with
  | nil => rfl
  | cons r rest ih =>
    rw [List.map_cons, List.nodup_cons] at hnodup
    by_cases hc : r.id = tid
    · have hrest : ∀ a ∈ rest, (a.id != tid) = true := by
        intro a ha
        have hmm : a.id ∈ List.map TaskDB.id rest :=
          List.mem_map_of_mem TaskDB.id ha
        have hne : a.id ≠ tid := by
          intro h
          rw [h, ← hc] at hmm
          exact hnodup.1 hmm
        simp [hne]
      simp [List.eraseP_cons, List.filter_cons, hc, List.filter_eq_self.2 hrest]
    · simp [List.eraseP_cons, List.filter_cons, hc, ih hnodup.2]

/-- C10: when the store has unique ids and contains a row with the given id,
delete succeeds and the resulting store is the original with exactly that
row removed — every other row is kept unchanged, in order. -/
theorem C10_delete_removes_exactly_target (store : List TaskDB) (tid : ℕ)
    (hnodup : (store.map TaskDB.id).Nodup) (t : TaskDB) (ht : t ∈ store)
    (hid : t.id = tid) :
    delete_task store tid =
      .ok ("Tarefa removida com sucesso.",
        store.filter (fun r => r.id != tid)) := by
  have h1 : ∃ x, x ∈ store ∧ (fun r : TaskDB => r.id == tid) x = true :=
    ⟨t, ht, by simp [hid]⟩
  obtain ⟨x, hx⟩ := Option.isSome_iff_exists.1 (List.find?_isSome.2 h1)
  have h2 : delete_task store tid =
      .ok ("Tarefa removida com sucesso.",
        store.eraseP (fun r => r.id == tid)) := by
    unfold delete_task
    rw [hx]
  rw [h2, eraseP_id_eq_filter tid store hnodup]

/-- Witness for C10 on a concrete two-row store. -/
theorem C10_delete_removes_exactly_target_witness :
    (([⟨1, "a", 0, 3600, 1, 50, 0⟩, ⟨2, "b", 1, 3601, 1, 50, 5⟩] :
        List TaskDB).map TaskDB.id).Nodup ∧
    (⟨1, "a", 0, 3600, 1, 50, 0⟩ : TaskDB) ∈
      ([⟨1, "a", 0, 3600, 1, 50, 0⟩, ⟨2, "b", 1, 3601, 1, 50, 5⟩] :
        List TaskDB) ∧
    delete_task [⟨1, "a", 0, 3600, 1, 50, 0⟩, ⟨2, "b", 1, 3601, 1, 50, 5⟩] 1 =
      .ok ("Tarefa removida com sucesso.",
        ([⟨1, "a", 0, 3600, 1, 50, 0⟩, ⟨2, "b", 1, 3601, 1, 50, 5⟩] :
          List TaskDB).filter (fun r => r.id != 1)) :=
  ⟨by simp, List.mem_cons_self _ _,
    C10_delete_removes_exactly_target _ 1 (by simp) _
      (List.mem_cons_self _ _) rfl⟩

end ServiceCosts
